import Mathlib

/-!
Shallow embedding of the be-my-assistant RAG backend core, verified against
the natural-language specification.

Strings are modelled as `List Char` (the source measures lengths in
characters), vector-store distances and embedding vectors as opaque type
parameters `D` and `V`. Calls into external collaborators (the sentence
embedding model, the chroma collection, the LLM gateway) are modelled as
oracle inputs: an `Except` or `Option` value describing the outcome of the
call, over which the theorems quantify. A Python function that can raise is
embedded with an `Except` result; a `try/except` block handles the `.error`
case exactly where the source does.
-/

/- ===================== basic Python string helpers ===================== -/

/-- Python str.startswith on char lists: the second list is a prefix of the first. -/
def pyStartsWith : List Char → List Char → Bool
  | _, [] => true
  | [], _ :: _ => false
  | c :: cs, p :: ps => c = p && pyStartsWith cs ps

/-- re.search of an escaped (literal) pattern: the pattern occurs somewhere in the text. -/
def containsSub : List Char → List Char → Bool
  | [], pat => pyStartsWith [] pat
  | c :: rest, pat => pyStartsWith (c :: rest) pat || containsSub rest pat

/-- Whitespace characters removed by Python str.strip (ASCII subset;
the source inputs of interest are ASCII). -/
def pyIsWs (c : Char) : Bool :=
  c = ' ' || c = '\t' || c = '\n' || c = '\r' || c = '\x0b' || c = '\x0c'

/-- Python str.strip(): removes leading and trailing whitespace. -/
def pyStrip (s : List Char) : List Char :=
  ((s.dropWhile pyIsWs).reverse.dropWhile pyIsWs).reverse

/-- Python separator.join(docs) on char lists. -/
def pyJoinSep (sep : List Char) : List (List Char) → List Char
  | [] => []
  | [d] => d
  | d :: e :: rest => d ++ sep ++ pyJoinSep sep (e :: rest)

/-- Concatenation of a list of char lists (Python "".join). -/
def pyConcat : List (List Char) → List Char
  | [] => []
  | d :: rest => d ++ pyConcat rest

/- ===================== Chunker =====================
app/core/document_processor.py builds a langchain RecursiveCharacterTextSplitter
with `length_function=len`, `is_separator_regex=False` and the library defaults
`separators=["\n\n", "\n", " ", ""]`, `keep_separator=True`,
`strip_whitespace=True`. The splitter itself is embedded below from the
langchain source, since it is the algorithm `split_text_into_chunks` runs. -/

/-- Splits `text` at the first occurrence of the literal separator `sep`:
returns the part before the occurrence and the part after it. -/
def findSplit (sep : List Char) : List Char → Option (List Char × List Char)
  | [] => none
  | c :: rest =>
    if pyStartsWith (c :: rest) sep then some ([], (c :: rest).drop sep.length)
    else
      match findSplit sep rest with
      | some (pre, post) => some (c :: pre, post)
      | none => none

/-- The segments of `text` between occurrences of the literal separator `sep`
(re.split with an escaped separator). The `sep = []` guard is never reached by
callers: `splitTextWithRegex` handles the empty separator separately, as the
source does. -/
def splitSegs (sep : List Char) (text : List Char) : List (List Char) :=
  if hsep : sep = [] then [text]
  else
    match hfs : findSplit sep text with
    | none => [text]
    | some pp => pp.1 :: splitSegs sep pp.2
termination_by text.length
decreasing_by
  have key : ∀ (t : List Char) (q : List Char × List Char),
      findSplit sep t = some q → q.1 ++ (sep ++ q.2) = t := by
    intro t
    induction t with
    | nil => intro q hq; simp [findSplit] at hq
    | cons c rest ih =>
      intro q hq
      by_cases hst : pyStartsWith (c :: rest) sep = true
      · have hdecomp : ∀ (p u : List Char), pyStartsWith u p = true →
            p ++ u.drop p.length = u := by
          intro p
          induction p with
          | nil => intro u _; simp
          | cons x xs ihp =>
            intro u hu
            cases u with
            | nil => simp [pyStartsWith] at hu
            | cons y ys =>
              simp [pyStartsWith] at hu
              simp [hu.1]
              exact ihp ys hu.2
        obtain ⟨q1, q2⟩ := q
        simp [findSplit, hst] at hq
        rw [hq.1, ← hq.2]
        simpa using hdecomp sep (c :: rest) hst
      · simp [findSplit, hst] at hq
        rcases hq' : findSplit sep rest with _ | q'
        · simp [hq'] at hq
        · simp [hq'] at hq
          have := ih q' hq'
          rw [← hq]
          simp [← this]
  have hlen := congrArg List.length (key text pp hfs)
  simp [List.length_append] at hlen
  have : sep.length ≠ 0 := by
    intro h0
    exact hsep (List.length_eq_zero.mp h0)
  omega

/-- langchain `_split_text_with_regex(text, escaped_sep, keep_separator=True)` for a
nonempty separator: the separator is re-attached to the front of the following
segment, and empty pieces are dropped. -/
def splitKeep (sep : List Char) (text : List Char) : List (List Char) :=
  match splitSegs sep text with
  | [] => []
  | s0 :: rest => (s0 :: rest.map (fun seg => sep ++ seg)).filter (fun s => !s.isEmpty)

/-- langchain `_split_text_with_regex`: an empty separator means split into single
characters; both branches drop empty pieces. -/
def splitTextWithRegex (sep : List Char) (text : List Char) : List (List Char) :=
  if sep = [] then (text.map (fun c => [c])).filter (fun s => !s.isEmpty)
  else splitKeep sep text

/-- The running total langchain maintains for `current_doc`: the sum of the piece
lengths plus one separator length between adjacent pieces. -/
def totalOf (sepLen : Nat) (doc : List (List Char)) : Nat :=
  (doc.map List.length).sum + sepLen * (doc.length - 1)

/-- langchain `_join_docs`: join with the separator, strip whitespace
(strip_whitespace defaults to True), drop the chunk if the result is empty. -/
def joinDocs (sep : List Char) (docs : List (List Char)) : Option (List Char) :=
  let text := pyStrip (pyJoinSep sep docs)
  if text = [] then none else some text

/-- The `while` loop inside langchain `_merge_splits` that pops pieces from the
front of `current_doc` until the overlap budget and the size budget are met.
`len` is the length of the incoming split. -/
def popLoop (chunkSize chunkOverlap sepLen len : Nat) : List (List Char) → List (List Char)
  | [] => []
  | d :: rest =>
    if chunkOverlap < totalOf sepLen (d :: rest) ∨
        (chunkSize < totalOf sepLen (d :: rest) + len + sepLen ∧
          0 < totalOf sepLen (d :: rest)) then
      popLoop chunkSize chunkOverlap sepLen len rest
    else d :: rest

/-- One iteration of the `for d in splits` loop of langchain `_merge_splits`.
State: (emitted docs, current_doc). -/
def mergeStep (chunkSize chunkOverlap : Nat) (sep : List Char)
    (st : List (List Char) × List (List Char)) (d : List Char) :
    List (List Char) × List (List Char) :=
  let len := d.length
  let sepLen := sep.length
  let total := totalOf sepLen st.2
  let st2 : List (List Char) × List (List Char) :=
    if chunkSize < total + len + (if st.2 = [] then 0 else sepLen) then
      if st.2 = [] then st
      else
        (match joinDocs sep st.2 with
          | some doc => st.1 ++ [doc]
          | none => st.1,
         popLoop chunkSize chunkOverlap sepLen len st.2)
    else st
  (st2.1, st2.2 ++ [d])

/-- langchain `_merge_splits`: merge a run of small splits into chunks of at
most `chunkSize` characters, re-using the trailing `chunkOverlap` characters of
the previous chunk. -/
def merge_splits (chunkSize chunkOverlap : Nat) (sep : List Char)
    (splits : List (List Char)) : List (List Char) :=
  let st := splits.foldl (mergeStep chunkSize chunkOverlap sep) ([], [])
  match joinDocs sep st.2 with
  | some doc => st.1 ++ [doc]
  | none => st.1

/-- One iteration of the good/bad split loop in langchain `_split_text`.
`handleBad` is what the source does with a piece at least `chunkSize` long:
append it whole (no further separators) or recursively re-split it.
The merge separator is `""` because `keep_separator=True`. -/
def processStep (chunkSize chunkOverlap : Nat) (handleBad : List Char → List (List Char))
    (st : List (List Char) × List (List Char)) (s : List Char) :
    List (List Char) × List (List Char) :=
  if s.length < chunkSize then (st.1, st.2 ++ [s])
  else
    ((if st.2 = [] then st.1 else st.1 ++ merge_splits chunkSize chunkOverlap [] st.2)
       ++ handleBad s, [])

/-- The good/bad split loop of langchain `_split_text`, including the final flush
of pending good splits. -/
def processAllSplits (chunkSize chunkOverlap : Nat) (handleBad : List Char → List (List Char))
    (splits : List (List Char)) : List (List Char) :=
  let st := splits.foldl (processStep chunkSize chunkOverlap handleBad) ([], [])
  if st.2 = [] then st.1 else st.1 ++ merge_splits chunkSize chunkOverlap [] st.2

/-- langchain `RecursiveCharacterTextSplitter._split_text`, with the separator
scan fused into the recursion: walk the separator list; `""` or the first
separator occurring in the text is selected, with the remaining separators used
for recursive re-splitting; if none matches, the last separator of the original
list (`deflt`) is used with no further recursion. -/
def splitScan (chunkSize chunkOverlap : Nat) :
    List Char → List (List Char) → List Char → List (List Char)
  | deflt, [], text =>
    processAllSplits chunkSize chunkOverlap (fun s => [s]) (splitTextWithRegex deflt text)
  | _, s :: rest, text =>
    if s = [] then
      processAllSplits chunkSize chunkOverlap (fun s2 => [s2]) (splitTextWithRegex [] text)
    else if containsSub text s then
      processAllSplits chunkSize chunkOverlap
        (if rest = [] then fun s2 => [s2]
         else fun s2 => splitScan chunkSize chunkOverlap ((rest.getLast?).getD []) rest s2)
        (splitTextWithRegex s text)
    else splitScan chunkSize chunkOverlap ((s :: rest).getLast?.getD []) rest text

/-- The default separator list of RecursiveCharacterTextSplitter. -/
def defaultSeparators : List (List Char) := [['\n', '\n'], ['\n'], [' '], []]

/-- `split_text_into_chunks` from app/core/document_processor.py: empty text gives
an empty list, otherwise the RecursiveCharacterTextSplitter (character length
function, literal default separators) splits the text. Defaults:
`chunk_size=800`, `chunk_overlap=50`. -/
def split_text_into_chunks (text : List Char) (chunkSize : Nat := 800)
    (chunkOverlap : Nat := 50) : List (List Char) :=
  if text = [] then []
  else splitScan chunkSize chunkOverlap ((defaultSeparators.getLast?).getD [])
    defaultSeparators text

/-- Property-statement helper: every adjacent pair of chunks shares a suffix /
prefix of exactly `k` characters (the last `k` characters of each non-final
chunk equal the first `k` characters of the next chunk). -/
def overlapOk (k : Nat) : List (List Char) → Bool
  | a :: b :: rest => (a.drop (a.length - k) == b.take k) && overlapOk k (b :: rest)
  | _ => true

/- ===================== RAG orchestrator ===================== -/

/-- The fixed "Error:" marker that distinguishes orchestrator failures. -/
def errMarker : List Char := String.toList "Error:"

/-- `format_docs` from app/core/rag_orchestrator.py: `None` or an empty list
gives the fixed sentinel, otherwise the concatenation of the text components.
The distance component type is opaque. -/
def noContextSentinel : List Char :=
  String.toList "No relevant context was found in the documents."

/-- `format_docs` from app/core/rag_orchestrator.py (`if not docs` covers both
`None` and the empty list; otherwise `"".join(doc[0] for doc in docs)`). -/
def format_docs {α : Type} (docs : Option (List (List Char × α))) : List Char :=
  match docs with
  | none => noContextSentinel
  | some [] => noContextSentinel
  | some (d :: ds) => pyConcat ((d :: ds).map Prod.fst)

/-- Outcome of one call to the LLM gateway (`invoke_llm_langchain`, whose module
is not part of src/): it raises, returns `None`, or returns an answer string.
The prompt-formatting step inside the same `try` block is covered by `raises`. -/
inductive LlmOutcome : Type
  | raises (msg : List Char)
  | retNone
  | answer (s : List Char)
deriving DecidableEq

/-- The LLM stage failed (raised or returned `None`) rather than producing an
answer string. -/
def llmFailed : LlmOutcome → Bool
  | .raises _ => true
  | .retNone => true
  | .answer _ => false

/-- The dict chromadb returns from `collection.query`: each field holds one inner
list per query embedding (the source always sends exactly one query embedding).
A metadata dict is modelled by its `source` field; `none` stands for a dict that
is falsy or has no usable `source` key. `metadatas = none` models an absent/None
field. -/
structure QueryResults (D : Type) where
  ids : List (List (List Char))
  documents : List (List (List Char))
  distances : List (List D)
  metadatas : Option (List (List (Option (List Char))))
deriving DecidableEq

/-- `query_vector_store` from app/core/vector_store_manager.py. Oracles:
`embedRes` is the result of `embed_texts([query_text], model)` (None when the
model is missing or encoding raised), `rawQuery` the outcome of
`collection.query`. Every exception inside the source's `try` is caught and
mapped to `None`. -/
def query_vector_store {V D : Type} (hasCollection hasModel : Bool) (queryText : List Char)
    (embedRes : Option (List V)) (rawQuery : Except (List Char) (QueryResults D)) :
    Option (List (List Char × D)) :=
  if !hasCollection then none
  else if !hasModel then none
  else if queryText = [] then some []
  else
    match embedRes with
    | none => none
    | some [] => none
    | some (_ :: _) =>
      match rawQuery with
      | .error _ => none
      | .ok qr =>
        if qr.ids = [] ∨ qr.ids.headD [] = [] then some []
        else
          match qr.documents, qr.distances with
          | ds :: _, dist :: _ => some (ds.zip dist)
          | _, _ => none

/-- `get_rag_response` from app/core/rag_orchestrator.py. The query step cannot
raise (`query_vector_store` catches internally and returns `None`, which the
source converts to an empty list), so the source's step-1 and step-3 `except`
branches are unreachable; steps shown are credential check, retrieval,
formatting and the LLM call. The message-list construction (step 3) is pure and
does not affect the returned value, which depends on the LLM outcome alone. -/
def get_rag_response {V D : Type} (apiKey hasCollection hasModel : Bool)
    (question : List Char) (embedRes : Option (List V))
    (rawQuery : Except (List Char) (QueryResults D)) (llm : LlmOutcome) :
    Option (List Char) :=
  if !apiKey then some (String.toList "Error: LLM API Key is not configured.")
  else
    let retrievedDocs :=
      (query_vector_store hasCollection hasModel question embedRes rawQuery).getD []
    let _contextString := format_docs (some retrievedDocs)
    match llm with
    | .raises _ =>
      some (String.toList "Error: Failed to generate final answer de to LLM call issue.")
    | .retNone =>
      some (String.toList "Error: Failed to get response from the language model (via llm_interface).")
    | .answer s => some s

/-- The fixed, cause-independent error strings `get_rag_response` can return
(source lines 157, 175, 215, 230, 240 of app/core/rag_orchestrator.py). -/
def ragFixedErrors : List (List Char) :=
  [String.toList "Error: LLM API Key is not configured.",
   String.toList "Error: Failed to retrieve context information.",
   String.toList "Error: Failed to build prompt for the language model.",
   String.toList "Error: Failed to get response from the language model (via llm_interface).",
   String.toList "Error: Failed to generate final answer de to LLM call issue."]

/- ===================== admin preview ===================== -/

/-- `RetrievedChunkInfo` from app/schemas.py (distance type opaque). -/
structure RetrievedChunkInfo (D : Type) where
  source : List Char
  content_preview : List Char
  full_content : List Char
  distance : D
deriving DecidableEq

/-- Truncating three-way zip, as Python `zip(a, b, c)`. -/
def pyZip3 {α β γ : Type} : List α → List β → List γ → List (α × β × γ)
  | a :: as, b :: bs, c :: cs => (a, b, c) :: pyZip3 as bs cs
  | _, _, _ => []

/-- The body of the chunk-info loop in `get_admin_preview`: preview is the first
150 characters plus "..." when longer, source falls back to "Unknown Source". -/
def mkChunkInfo {D : Type} (t : List Char × D × Option (List Char)) :
    RetrievedChunkInfo D :=
  { source :=
      match t.2.2 with
      | none => String.toList "Unknown Source"
      | some s => s
    content_preview :=
      if t.1.length > 150 then t.1.take 150 ++ String.toList "..." else t.1
    full_content := t.1
    distance := t.2.1 }

/-- Step 1 of `get_admin_preview` (app/core/rag_orchestrator.py): embed the
question, query the collection with metadatas included, and build the chunk
infos. Raise points (failed embedding via `raise ValueError`, a raising
`collection.query`, and out-of-range indexing into the result lists) become
`.error`; they all occur before any chunk info is accumulated. -/
def previewQuery {V D : Type} (question : List Char) (embedRes : Option (List V))
    (queryRes : Except (List Char) (QueryResults D)) :
    Except (List Char)
      (List (RetrievedChunkInfo D) × List (List Char × D × Option (List Char))) :=
  match embedRes with
  | none => .error (String.toList "Failed to generate query embedding.")
  | some [] => .error (String.toList "Failed to generate query embedding.")
  | some (_ :: _) =>
    match queryRes with
    | .error e => .error e
    | .ok qr =>
      if qr.ids ≠ [] ∧ qr.ids.headD [] ≠ [] then
        match qr.documents, qr.distances with
        | docsContent :: _, dists :: _ =>
          let metas :=
            match qr.metadatas with
            | some (m :: _) =>
              if m.length ≠ docsContent.length then
                List.replicate docsContent.length none
              else m
            | _ => List.replicate docsContent.length none
          let triples := pyZip3 docsContent dists metas
          .ok (triples.map mkChunkInfo, triples)
        | _, _ => .error (String.toList "list index out of range")
      else .ok ([], [])

/-- Step 2 of `get_admin_preview`: the context string handed to the preview LLM
call, `format_docs` over the (text, distance) pairs, or `format_docs(None)` when
nothing was retrieved. -/
def previewContext {D : Type} (docs : List (List Char × D × Option (List Char))) :
    List Char :=
  match docs with
  | [] => format_docs (α := D) none
  | d :: ds => format_docs (some ((d :: ds).map (fun t => (t.1, t.2.1))))

/-- `get_preview_llm_response` from app/core/rag_orchestrator.py. Every return
path yields a string; the `try` around the LLM call maps a raising gateway (or
prompt formatting) to an "Error: ..." string. -/
def get_preview_llm_response (apiKey : Bool) (question : List Char)
    (contextString : List Char) (llm : LlmOutcome) : List Char :=
  if !apiKey then String.toList "Error: LLM API Key is not configured."
  else if question = [] then String.toList "Error: Question is empty."
  else if contextString = [] then
    String.toList "No relevant context snippets were found to generate a draft answer."
  else
    match llm with
    | .raises e => String.toList "Error: Failed to generate draft answer - " ++ e
    | .retNone =>
      String.toList "Error: Failed to get response from the language model for preview."
    | .answer s => s

/-- `get_admin_preview` from app/core/rag_orchestrator.py. Step 3's
`draft_answer is None` and `startswith("Error:")` checks only log and keep the
draft unchanged, and `get_preview_llm_response` is total, so step 3 reduces to
its call; the default draft "Error: Preview generation failed." is always
overwritten before being returned. -/
def get_admin_preview {V D : Type} (apiKey : Bool) (question : List Char)
    (embedRes : Option (List V)) (queryRes : Except (List Char) (QueryResults D))
    (llm : LlmOutcome) : List (RetrievedChunkInfo D) × List Char :=
  if !apiKey then ([], String.toList "Error: LLM API Key is not configured.")
  else
    match previewQuery question embedRes queryRes with
    | .error e =>
      ([], String.toList "Error: Failed to retrieve context information - " ++ e)
    | .ok (infos, docs) =>
      (infos, get_preview_llm_response apiKey question (previewContext docs) llm)

/-- The preview-LLM call is actually reached for these inputs: credentials set,
question nonempty, retrieval step succeeded, and the formatted context string is
nonempty. -/
def previewReachesLlm {V D : Type} (apiKey : Bool) (question : List Char)
    (embedRes : Option (List V)) (queryRes : Except (List Char) (QueryResults D)) : Bool :=
  apiKey && !question.isEmpty &&
    (match previewQuery question embedRes queryRes with
     | .ok (_, docs) => !(previewContext docs).isEmpty
     | .error _ => false)

/- ===================== API endpoints ===================== -/

/-- The observable outcome of an endpoint: a successful response body or an
HTTPException with a status code and a detail string. -/
inductive ApiResult (α : Type) : Type
  | ok (a : α)
  | httpError (status : Nat) (detail : List Char)
deriving DecidableEq

/-- `chat_with_rag` from app/api/endpoints.py (after dependency injection):
empty question is rejected with 400 before the orchestrator runs; a `None` or
"Error:"-prefixed orchestrator result becomes a 500 with a generic detail;
anything else is the chat answer. -/
def chat_with_rag {V D : Type} (question : List Char) (apiKey hasCollection hasModel : Bool)
    (embedRes : Option (List V)) (rawQuery : Except (List Char) (QueryResults D))
    (llm : LlmOutcome) : ApiResult (List Char) :=
  if question = [] then
    .httpError 400 (String.toList "Question cannot be empty.")
  else
    match get_rag_response apiKey hasCollection hasModel question embedRes rawQuery llm with
    | none =>
      .httpError 500 (String.toList
        "Failed to generate response due to an internal error in the RAG process.")
    | some answer =>
      if pyStartsWith answer errMarker then
        .httpError 500 (String.toList
          "Failed to generate response due to an internal processing error.")
      else .ok answer

/-- The message of the TypeError CPython raises at the endpoint's call to
`get_admin_preview`: the source (app/api/endpoints.py lines 364-368) passes
only question, embedding_model and vector_collection, but `get_admin_preview`
(app/core/rag_orchestrator.py lines 242-247) also requires `persona_settings`,
which has no default. The f-string of the catch-all interpolates str(e), which
carries no "TypeError:" prefix. -/
def previewTypeErrorMsg : List Char :=
  String.toList
    "get_admin_preview() missing 1 required positional argument: \x27persona_settings\x27"

/-- `preview_context` from app/api/endpoints.py (after dependency injection):
an empty question is rejected with 400. For a nonempty question the source
calls `get_admin_preview` WITHOUT its required `persona_settings` argument,
so the call raises TypeError before the orchestrator body runs; the TypeError
is caught by the endpoint's catch-all (lines 400-406), which returns HTTP 500
with the raw exception text interpolated into the detail. The orchestrator's
(retrieved_chunks, draft_answer) pair is never returned; the pipeline oracles
the endpoint would have consumed are therefore never used. -/
def preview_context {V D : Type} (question : List Char) (apiKey : Bool)
    (embedRes : Option (List V)) (queryRes : Except (List Char) (QueryResults D))
    (llm : LlmOutcome) : ApiResult (List (RetrievedChunkInfo D) × List Char) :=
  if question = [] then
    .httpError 400 (String.toList "Question cannot be empty for preview.")
  else
    .httpError 500 (String.toList "An unexpected internal error occurred during preview: "
      ++ previewTypeErrorMsg)

/- ===================== vector store ===================== -/

/-- A persisted record of the chroma collection (§3 Stored Document Record):
id, chunk text, the metadata's `source` field (`none` when the record was added
without metadata), and its embedding vector. -/
structure StoreRec (V : Type) where
  id : List Char
  text : List Char
  source : Option (List Char)
  vec : V
deriving DecidableEq

/-- Modelled from the spec: `delete_documents_by_source` is imported by
app/api/endpoints.py from app.core.vector_store_manager but its definition is
not part of src/. Per spec §4.3 it deletes all records whose
`metadata.source == filename` (exact, case-sensitive match) and deleting a
non-existent source is not an error — it succeeds vacuously. -/
def delete_documents_by_source {V : Type} (store : List (StoreRec V))
    (filename : List Char) : List (StoreRec V) × Bool :=
  (store.filter (fun r => decide (r.source ≠ some filename)), true)

/-- A Python-truthy optional list: present and nonempty. -/
def listTruthy {α : Type} : Option (List α) → Bool
  | some (_ :: _) => true
  | _ => false

/-- The records `collection.add` appends, one per position of the four
index-aligned argument lists (all the same length on the reachable call path). -/
def buildRecs {V : Type} :
    List (List Char) → List (List Char) → List V → List (Option (List Char)) →
      List (StoreRec V)
  | i :: is, t :: ts, v :: vs, m :: ms => ⟨i, t, m, v⟩ :: buildRecs is ts vs ms
  | _, _, _, _ => []

/-- `add_texts_to_vector_store` from app/core/vector_store_manager.py over an
explicit store state. A metadata dict is modelled by its `source` field.
`genIds` is the list of generated `doc_{uuid4}` ids used when `ids is None`
(the source generates exactly `len(texts)` of them); `addRaises` is the outcome
of the underlying `collection.add` call, whose exception is caught and mapped
to `False`. Returns the new store contents and the boolean result. -/
def add_texts_to_vector_store {V : Type} (hasCollection : Bool)
    (store : List (StoreRec V)) (texts : List (List Char)) (embeddings : List V)
    (metadatas : Option (List (Option (List Char)))) (ids : Option (List (List Char)))
    (genIds : List (List Char)) (addRaises : Bool) : List (StoreRec V) × Bool :=
  if !hasCollection then (store, false)
  else if texts.isEmpty || embeddings.isEmpty then (store, true)
  else if embeddings.length ≠ texts.length then (store, false)
  else if listTruthy metadatas ∧ (metadatas.getD []).length ≠ texts.length then
    (store, false)
  else if listTruthy ids ∧ (ids.getD []).length ≠ texts.length then (store, false)
  else
    let usedIds := ids.getD genIds
    let usedMetas := (metadatas.getD (List.replicate texts.length none))
    if addRaises then (store, false)
    else (store ++ buildRecs usedIds texts embeddings usedMetas, true)

/-- The document-ingestion flow of `upload_document` (app/api/endpoints.py,
lines 88-216) from the extracted document text onward: best-effort
delete-by-source first, then chunking with the default parameters, then
embedding (modelled as a deterministic per-chunk function), then
`add_texts_to_vector_store` with `{'source': filename}` metadata per chunk and
generated ids. Empty text or zero chunks returns 0 chunks added; an add failure
leaves the store as it was after the deletion. Returns the new store and
`chunks_added`. -/
def ingest {V : Type} (store : List (StoreRec V)) (filename text : List Char)
    (embed : List Char → V) (genId : Nat → List Char) : List (StoreRec V) × Nat :=
  let store1 := (delete_documents_by_source store filename).1
  let chunks := split_text_into_chunks text 800 50
  if chunks = [] then (store1, 0)
  else
    let embeddings := chunks.map embed
    let metadatas := chunks.map (fun _ => some filename)
    let res := add_texts_to_vector_store true store1 chunks embeddings (some metadatas)
      none ((List.range chunks.length).map genId) false
    if res.2 then (res.1, chunks.length) else (store1, 0)

/-- Number of records in the store whose metadata source equals `filename`. -/
def countSource {V : Type} (store : List (StoreRec V)) (filename : List Char) : Nat :=
  store.countP (fun r => decide (r.source = some filename))

/-- `delete_context` from app/api/endpoints.py (after dependency injection):
empty filename is rejected with 400; a `False` from the deletion function
becomes a 500; success is 204 No Content (modelled as `.ok ()`). Returns the
endpoint outcome and the store contents afterwards. -/
def delete_context {V : Type} (filename : List Char) (store : List (StoreRec V)) :
    ApiResult Unit × List (StoreRec V) :=
  if filename = [] then
    (.httpError 400 (String.toList "Filename cannot be empty."), store)
  else
    let res := delete_documents_by_source store filename
    if !res.2 then
      (.httpError 500 (String.toList "Failed to delete context for filename from the vector store."),
       res.1)
    else (.ok (), res.1)

/- ===================== shared helper lemmas ===================== -/

theorem pyStartsWith_append {p a : List Char} (b : List Char)
    (h : pyStartsWith a p = true) : pyStartsWith (a ++ b) p = true := by
  induction p generalizing a with
  | nil => simp [pyStartsWith]
  | cons x xs ih =>
    cases a with
    | nil => simp [pyStartsWith] at h
    | cons y ys =>
      simp [pyStartsWith] at h ⊢
      exact ⟨h.1, ih h.2⟩

/- ===================== claim theorems ===================== -/

set_option maxRecDepth 8000 in
/-- C1: on the text "abcdefghijklmnopqrstuvwxyz" with chunk_size=10 and
chunk_overlap=3 the chunker returns exactly the four chunks "abcdefghij",
"hijklmnopq", "opqrstuvwx", "vwxyz", and each non-final chunk's last 3
characters equal the next chunk's first 3 characters. -/
theorem C1_overlap_example :
    split_text_into_chunks (String.toList "abcdefghijklmnopqrstuvwxyz") 10 3 =
      [String.toList "abcdefghij", String.toList "hijklmnopq",
       String.toList "opqrstuvwx", String.toList "vwxyz"] ∧
    overlapOk 3 (split_text_into_chunks (String.toList "abcdefghijklmnopqrstuvwxyz") 10 3)
      = true := by
  decide

/-- C6: the context formatter returns the fixed neutral sentinel when the
retrieved list is null or empty, and otherwise the concatenation of the text
field of every retrieved (text, distance) pair, in the order received, with
each chunk's text unaltered and untruncated. -/
theorem C6_format_docs {α : Type} :
    format_docs (α := α) none = noContextSentinel ∧
    format_docs (α := α) (some []) = noContextSentinel ∧
    ∀ ds : List (List Char × α), ds ≠ [] →
      format_docs (some ds) = pyConcat (ds.map Prod.fst) := by
  refine ⟨rfl, rfl, ?_⟩
  intro ds hds
  cases ds with
  | nil => exact absurd rfl hds
  | cons d rest => rfl

/-- Witness for C6 at a concrete two-chunk retrieval. -/
theorem C6_format_docs_witness :
    format_docs (some [(String.toList "ab", (0 : Int)), (String.toList "cd", 1)]) =
      String.toList "abcd" := by
  rw [(C6_format_docs (α := Int)).2.2 [(String.toList "ab", 0), (String.toList "cd", 1)]
    (by decide)]
  decide

/-- C8: the chat endpoint rejects an empty question with a 400 validation
error before any pipeline work is done — the outcome is the same for every
credential state and every retrieval/LLM oracle outcome. -/
theorem C8_empty_question {V D : Type} (apiKey hasCollection hasModel : Bool)
    (embedRes : Option (List V)) (rawQuery : Except (List Char) (QueryResults D))
    (llm : LlmOutcome) :
    chat_with_rag [] apiKey hasCollection hasModel embedRes rawQuery llm =
      .httpError 400 (String.toList "Question cannot be empty.") := rfl

/-- C9: deleting a source filename for which no records exist succeeds
vacuously — the deletion function reports success and leaves the store
unchanged, and the endpoint answers 204 (ok), not an error.
(The deletion function itself is modelled from the spec, see
`delete_documents_by_source`.) -/
theorem C9_delete_vacuous {V : Type} (store : List (StoreRec V)) (filename : List Char)
    (hf : filename ≠ []) (h : ∀ r ∈ store, r.source ≠ some filename) :
    (delete_documents_by_source store filename).2 = true ∧
    (delete_documents_by_source store filename).1 = store ∧
    delete_context filename store = (.ok (), store) := by
  have hkeep : (delete_documents_by_source store filename).1 = store := by
    simp only [delete_documents_by_source]
    rw [List.filter_eq_self]
    intro r hr
    simpa using h r hr
  refine ⟨rfl, hkeep, ?_⟩
  have hstep : delete_context filename store =
      (.ok (), (delete_documents_by_source store filename).1) := by
    unfold delete_context
    rw [if_neg hf]
    rfl
  rw [hstep, hkeep]

/-- Witness for C9: a store holding one record for "a.pdf", deleting
"nonexistent.pdf". -/
theorem C9_delete_vacuous_witness :
    (delete_documents_by_source (V := Unit)
        [⟨String.toList "id1", String.toList "txt", some (String.toList "a.pdf"), ()⟩]
        (String.toList "nonexistent.pdf")).2 = true ∧
    (delete_documents_by_source (V := Unit)
        [⟨String.toList "id1", String.toList "txt", some (String.toList "a.pdf"), ()⟩]
        (String.toList "nonexistent.pdf")).1 =
      [⟨String.toList "id1", String.toList "txt", some (String.toList "a.pdf"), ()⟩] ∧
    delete_context (String.toList "nonexistent.pdf")
        [⟨String.toList "id1", String.toList "txt", some (String.toList "a.pdf"), ()⟩] =
      (.ok (), [⟨String.toList "id1", String.toList "txt", some (String.toList "a.pdf"), ()⟩]) :=
  C9_delete_vacuous _ _ (by decide) (by decide)

/-- C5 counterexample: with texts = ["a"] and embeddings = [] the lengths
differ (1 versus 0), yet the add operation returns success (True), not
failure, and writes nothing — refuting "returns failure" as stated. -/
theorem C5_counterexample :
    [String.toList "a"].length ≠ ([] : List Unit).length ∧
    add_texts_to_vector_store (V := Unit) true [] [String.toList "a"] [] none none [] false
      = ([], true) := by decide

/-- C5 amended: when texts and embeddings are both nonempty, and the lengths of
texts, embeddings, and metadatas/ids (whenever those are given and nonempty) are
not all equal, the add operation returns failure and leaves the store unchanged
(no partial write). When texts or embeddings is empty the operation instead
returns success without writing. -/
theorem C5_amended {V : Type} (hasCollection : Bool) (store : List (StoreRec V))
    (texts : List (List Char)) (embeddings : List V)
    (metadatas : Option (List (Option (List Char)))) (ids : Option (List (List Char)))
    (genIds : List (List Char)) (addRaises : Bool)
    (ht : texts ≠ []) (he : embeddings ≠ [])
    (hmis : embeddings.length ≠ texts.length ∨
      (listTruthy metadatas = true ∧ (metadatas.getD []).length ≠ texts.length) ∨
      (listTruthy ids = true ∧ (ids.getD []).length ≠ texts.length)) :
    add_texts_to_vector_store hasCollection store texts embeddings metadatas ids genIds
      addRaises = (store, false) := by
  unfold add_texts_to_vector_store
  cases hasCollection with
  | false => rfl
  | true =>
    simp only [Bool.not_true, Bool.false_eq_true, if_false]
    have hempty : (texts.isEmpty || embeddings.isEmpty) = false := by
      cases texts with
      | nil => exact absurd rfl ht
      | cons t ts =>
        cases embeddings with
        | nil => exact absurd rfl he
        | cons e es => rfl
    rw [hempty]
    simp only [Bool.false_eq_true, if_false]
    split_ifs with hlen hmeta hids hraise
    · rfl
    · rfl
    · rfl
    · rfl
    · exfalso
      rcases hmis with h1 | h2 | h3
      · exact hlen h1
      · exact hmeta h2
      · exact hids h3

/-- Witness for C5 amended: two embeddings for one text is rejected without a
write. -/
theorem C5_amended_witness :
    add_texts_to_vector_store (V := Unit) true [] [String.toList "a"] [(), ()] none none [] false
      = ([], false) :=
  C5_amended true [] [String.toList "a"] [(), ()] none none [] false
    (by decide) (by decide) (Or.inl (by decide))

/-- C10: whenever the orchestrator result string starts with "Error:" —
including a successfully generated LLM answer that merely happens to begin with
that prefix — the chat endpoint raises a 500 internal error instead of
returning it as the answer; consequently a successful chat response string
never starts with "Error:". -/
theorem C10_error_prefix_rejected {V D : Type} (question : List Char)
    (apiKey hasCollection hasModel : Bool) (embedRes : Option (List V))
    (rawQuery : Except (List Char) (QueryResults D)) (llm : LlmOutcome)
    (hq : question ≠ []) :
    (∀ ans, get_rag_response apiKey hasCollection hasModel question embedRes rawQuery llm
        = some ans → pyStartsWith ans errMarker = true →
      chat_with_rag question apiKey hasCollection hasModel embedRes rawQuery llm =
        .httpError 500 (String.toList
          "Failed to generate response due to an internal processing error.")) ∧
    (∀ ans, chat_with_rag question apiKey hasCollection hasModel embedRes rawQuery llm
        = .ok ans → pyStartsWith ans errMarker = false) := by
  constructor
  · intro ans hans hpre
    unfold chat_with_rag
    rw [if_neg hq, hans]
    simp [hpre]
  · intro ans hans
    unfold chat_with_rag at hans
    rw [if_neg hq] at hans
    cases hr : get_rag_response apiKey hasCollection hasModel question embedRes rawQuery llm with
    | none => rw [hr] at hans; simp at hans
    | some a =>
      rw [hr] at hans
      dsimp only at hans
      by_cases hpre : pyStartsWith a errMarker = true
      · rw [if_pos hpre] at hans
        simp at hans
      · rw [if_neg hpre] at hans
        have : a = ans := by simpa using hans
        subst this
        simpa using hpre

/-- Witness for C10: the LLM successfully answers "Error: oops", and the chat
endpoint turns it into a 500 rather than returning it. -/
theorem C10_error_prefix_rejected_witness :
    chat_with_rag (V := Unit) (D := Int) (String.toList "hi") true true true (some [()])
        (.ok ⟨[], [], [], none⟩) (.answer (String.toList "Error: oops")) =
      .httpError 500 (String.toList
        "Failed to generate response due to an internal processing error.") :=
  (C10_error_prefix_rejected (String.toList "hi") true true true (some [()])
      (.ok ⟨[], [], [], none⟩) (.answer (String.toList "Error: oops")) (by decide)).1
    (String.toList "Error: oops") (by decide) (by decide)

/-- Supporting fact for the C3 verdict: the orchestrator function
`get_admin_preview` itself, called with all of its required arguments as its
signature demands, does always return a 2-tuple — an exception at any modelled
stage is absorbed, never propagated — and whenever the LLM stage is reached
and fails, the draft-answer component starts with "Error:". This is the
contract the spec describes; the preview endpoint, however, never performs
this call correctly (see the C3 theorem below). -/
theorem admin_preview_returns_pair {V D : Type} (apiKey : Bool) (question : List Char)
    (embedRes : Option (List V)) (queryRes : Except (List Char) (QueryResults D))
    (llm : LlmOutcome) :
    (∃ chunks draft,
      get_admin_preview apiKey question embedRes queryRes llm = (chunks, draft)) ∧
    (llmFailed llm = true →
      previewReachesLlm apiKey question embedRes queryRes = true →
      pyStartsWith (get_admin_preview apiKey question embedRes queryRes llm).2 errMarker
        = true) := by
  constructor
  · exact ⟨_, _, rfl⟩
  · intro hfail hreach
    unfold previewReachesLlm at hreach
    simp only [Bool.and_eq_true] at hreach
    obtain ⟨⟨hak, hqe⟩, hmatch⟩ := hreach
    cases hpq : previewQuery question embedRes queryRes with
    | error e => rw [hpq] at hmatch; simp at hmatch
    | ok pr =>
      obtain ⟨infos, docs⟩ := pr
      rw [hpq] at hmatch
      dsimp only at hmatch
      have hctx : previewContext docs ≠ [] := by
        intro hc
        rw [hc] at hmatch
        simp [List.isEmpty] at hmatch
      have hquestion : question ≠ [] := by
        intro hq
        rw [hq] at hqe
        simp [List.isEmpty] at hqe
      unfold get_admin_preview
      rw [hak]
      simp only [Bool.not_true, Bool.false_eq_true, if_false]
      rw [hpq]
      dsimp only
      unfold get_preview_llm_response
      simp only [Bool.not_true, Bool.false_eq_true, if_false]
      rw [if_neg hquestion, if_neg hctx]
      cases llm with
      | raises e => exact pyStartsWith_append e (by decide)
      | retNone => decide
      | answer s => simp [llmFailed] at hfail

/-- Concrete instance of `admin_preview_returns_pair`: one retrieved chunk,
LLM returns None; the draft answer is "Error:"-prefixed. -/
theorem admin_preview_returns_pair_witness :
    pyStartsWith (get_admin_preview (V := Unit) (D := Int) true (String.toList "hi")
        (some [()])
        (.ok ⟨[[String.toList "id1"]], [[String.toList "Paris"]], [[(0 : Int)]],
          some [[some (String.toList "doc.txt")]]⟩)
        .retNone).2 errMarker = true :=
  (admin_preview_returns_pair true (String.toList "hi") (some [()])
      (.ok ⟨[[String.toList "id1"]], [[String.toList "Paris"]], [[(0 : Int)]],
        some [[some (String.toList "doc.txt")]]⟩)
      .retNone).2 (by decide) (by decide)

/-- C3: contrary to the claim, the admin preview operation never returns the
(retrieved chunk infos, draft answer) 2-tuple: for every nonempty question and
every credential/retrieval/LLM oracle state, the preview endpoint answers
HTTP 500 carrying the TypeError text, because the source's call to
`get_admin_preview` omits the required `persona_settings` argument
(endpoints.py lines 364-368 versus rag_orchestrator.py lines 242-247) and the
raised TypeError lands in the endpoint's catch-all. The claim matches the
spec's intent and the orchestrator's own implementation, so the code is the
slip: a code bug. -/
theorem C3_preview_call_crashes {V D : Type} (question : List Char) (apiKey : Bool)
    (embedRes : Option (List V)) (queryRes : Except (List Char) (QueryResults D))
    (llm : LlmOutcome) (hq : question ≠ []) :
    preview_context question apiKey embedRes queryRes llm
      = .httpError 500
          (String.toList "An unexpected internal error occurred during preview: "
            ++ previewTypeErrorMsg) := by
  unfold preview_context
  rw [if_neg hq]

/-- Witness for C3 at the failing input: question "hi" with the embedding
model, the vector store and the LLM all healthy still yields the TypeError
500. -/
theorem C3_preview_call_crashes_witness :
    preview_context (V := Unit) (D := Int) (String.toList "hi") true (some [()])
        (.ok ⟨[[String.toList "id1"]], [[String.toList "Paris"]], [[(0 : Int)]],
          some [[some (String.toList "doc.txt")]]⟩) .retNone
      = .httpError 500
          (String.toList "An unexpected internal error occurred during preview: "
            ++ previewTypeErrorMsg) :=
  C3_preview_call_crashes (String.toList "hi") true (some [()])
    (.ok ⟨[[String.toList "id1"]], [[String.toList "Paris"]], [[(0 : Int)]],
      some [[some (String.toList "doc.txt")]]⟩) .retNone (by decide)

set_option maxRecDepth 8000 in
/-- C4 counterexample: a failure in the admin-preview path crosses the
external boundary with the raw exception text embedded: for the nonempty
question "q" the endpoint's broken `get_admin_preview` call raises TypeError
and the catch-all returns HTTP 500 whose detail interpolates the raw TypeError
text str(e) verbatim (and carries no "Error:" marker) — refuting "never
contains the raw exception/cause text". -/
theorem C4_counterexample :
    preview_context (V := Unit) (D := Int) (String.toList "q") true (some [()])
        (.error (String.toList "boom")) .retNone
      = .httpError 500
          (String.toList "An unexpected internal error occurred during preview: "
            ++ previewTypeErrorMsg) ∧
    containsSub (String.toList "An unexpected internal error occurred during preview: "
        ++ previewTypeErrorMsg) previewTypeErrorMsg = true := by decide

/-- C4 amended: failures surfaced by the chat orchestrator (missing credential
or LLM failure) cross the boundary as one of a fixed set of generic messages,
each carrying the "Error:" marker and none embedding the raw cause text — but
the endpoints' catch-all handlers interpolate the raw exception text into the
HTTP 500 detail that crosses the boundary (every nonempty-question admin
preview does so, see the counterexample; the per-stage "Error: ... - {e}"
messages inside get_admin_preview are unreachable, since the endpoint's call
raises TypeError first). -/
theorem C4_chat_errors_generic {V D : Type} (apiKey hasCollection hasModel : Bool)
    (question : List Char) (embedRes : Option (List V))
    (rawQuery : Except (List Char) (QueryResults D)) (llm : LlmOutcome)
    (hfail : apiKey = false ∨ llmFailed llm = true) :
    ∃ m, get_rag_response apiKey hasCollection hasModel question embedRes rawQuery llm
        = some m ∧
      m ∈ ragFixedErrors ∧ pyStartsWith m errMarker = true := by
  cases hak : apiKey with
  | false =>
    exact ⟨String.toList "Error: LLM API Key is not configured.", rfl, by decide, by decide⟩
  | true =>
    rcases hfail with h1 | h2
    · exact absurd hak (by rw [h1]; decide)
    · cases llm with
      | raises e =>
        exact ⟨String.toList "Error: Failed to generate final answer de to LLM call issue.",
          rfl, by decide, by decide⟩
      | retNone =>
        exact ⟨String.toList
            "Error: Failed to get response from the language model (via llm_interface).",
          rfl, by decide, by decide⟩
      | answer s => simp [llmFailed] at h2

/-- Witness for C4 amended: with the credential missing the orchestrator
returns the fixed API-key message. -/
theorem C4_chat_errors_generic_witness :
    ∃ m, get_rag_response (V := Unit) (D := Int) false true true (String.toList "q")
        none (.error []) .retNone = some m ∧
      m ∈ ragFixedErrors ∧ pyStartsWith m errMarker = true :=
  C4_chat_errors_generic false true true (String.toList "q") none (.error []) .retNone
    (Or.inl rfl)

theorem countSource_delete {V : Type} (store : List (StoreRec V)) (filename : List Char) :
    countSource (delete_documents_by_source store filename).1 filename = 0 := by
  simp only [countSource, delete_documents_by_source]
  induction store with
  | nil => rfl
  | cons r rest ih =>
    by_cases hr : r.source = some filename
    · simpa [List.filter_cons, hr] using ih
    · simpa [List.filter_cons, hr, List.countP_cons] using ih

theorem countP_buildRecs {V : Type} (filename : List Char) :
    ∀ (ids2 ts : List (List Char)) (vs : List V) (ms : List (Option (List Char))),
      (∀ m ∈ ms, m = some filename) →
      ids2.length = ts.length → ts.length = vs.length → vs.length = ms.length →
      (buildRecs ids2 ts vs ms).countP (fun r => decide (r.source = some filename))
        = ts.length := by
  intro ids2
  induction ids2 with
  | nil =>
    intro ts vs ms hm h1 h2 h3
    have : ts = [] := List.length_eq_zero.mp h1.symm
    subst this
    rfl
  | cons i irest ih =>
    intro ts vs ms hm h1 h2 h3
    cases ts with
    | nil => simp at h1
    | cons t trest =>
      cases vs with
      | nil => simp at h2
      | cons v vrest =>
        cases ms with
        | nil => simp at h3
        | cons m mrest =>
          have hmhead : m = some filename := hm m (by simp)
          have hrest := ih trest vrest mrest (fun x hx => hm x (by simp [hx]))
            (by simpa using h1) (by simpa using h2) (by simpa using h3)
          simp only [buildRecs, List.countP_cons, hrest, List.length_cons]
          simp [hmhead]

theorem countSource_ingest {V : Type} (store : List (StoreRec V))
    (filename text : List Char) (embed : List Char → V) (g : Nat → List Char) :
    countSource (ingest store filename text embed g).1 filename
      = (split_text_into_chunks text 800 50).length := by
  unfold ingest
  by_cases hc : split_text_into_chunks text 800 50 = []
  · simp [hc, countSource_delete]
  · have h1 : ((split_text_into_chunks text 800 50).isEmpty
        || ((split_text_into_chunks text 800 50).map embed).isEmpty) = false := by
      cases hcc : split_text_into_chunks text 800 50 with
      | nil => exact absurd hcc hc
      | cons a b => rfl
    have h2 : ¬ ((split_text_into_chunks text 800 50).map embed).length
        ≠ (split_text_into_chunks text 800 50).length := by simp
    have h3 : ¬ (listTruthy
          (some ((split_text_into_chunks text 800 50).map (fun _ => some filename))) = true ∧
        ((some ((split_text_into_chunks text 800 50).map (fun _ => some filename))).getD
            []).length ≠ (split_text_into_chunks text 800 50).length) := by
      intro h
      exact h.2 (by simp)
    have h4 : ¬ (listTruthy (none : Option (List (List Char))) = true ∧
        ((none : Option (List (List Char))).getD []).length
          ≠ (split_text_into_chunks text 800 50).length) := by
      intro h
      simp [listTruthy] at h
    have hadd : add_texts_to_vector_store true (delete_documents_by_source store filename).1
        (split_text_into_chunks text 800 50)
        ((split_text_into_chunks text 800 50).map embed)
        (some ((split_text_into_chunks text 800 50).map (fun _ => some filename))) none
        ((List.range (split_text_into_chunks text 800 50).length).map g) false
      = ((delete_documents_by_source store filename).1 ++
          buildRecs ((List.range (split_text_into_chunks text 800 50).length).map g)
            (split_text_into_chunks text 800 50)
            ((split_text_into_chunks text 800 50).map embed)
            ((split_text_into_chunks text 800 50).map (fun _ => some filename)), true) := by
      unfold add_texts_to_vector_store
      rw [h1]
      simp only [Bool.not_true, Bool.false_eq_true, if_false]
      rw [if_neg h2, if_neg h3, if_neg h4]
      simp [Option.getD]
    simp only [hadd, if_neg hc]
    rw [if_pos trivial]
    simp only [countSource, List.countP_append]
    have hzero := countSource_delete store filename
    simp only [countSource] at hzero
    rw [hzero]
    rw [countP_buildRecs filename _ _ _ _ (by simp) (by simp) (by simp) (by simp)]
    simp

/-- C2: ingesting a file with the same filename and the same content twice
leaves the same number of chunks for that source in the store as a single
ingestion, because delete-by-source precedes the add. (The deletion function is
modelled from the spec; the generated record ids of the two runs may differ.) -/
theorem C2_reingest_idempotent {V : Type} (store : List (StoreRec V))
    (filename text : List Char) (embed : List Char → V) (g1 g2 : Nat → List Char) :
    countSource (ingest (ingest store filename text embed g1).1 filename text embed g2).1
        filename
      = countSource (ingest store filename text embed g1).1 filename := by
  rw [countSource_ingest, countSource_ingest]

theorem pyStartsWith_decomp : ∀ (p u : List Char), pyStartsWith u p = true →
    p ++ u.drop p.length = u := by
  intro p
  induction p with
  | nil => intro u _; simp
  | cons x xs ihp =>
    intro u hu
    cases u with
    | nil => simp [pyStartsWith] at hu
    | cons y ys =>
      simp [pyStartsWith] at hu
      simp [hu.1]
      exact ihp ys hu.2

theorem findSplit_decomp (sep : List Char) : ∀ (t : List Char) (q : List Char × List Char),
    findSplit sep t = some q → q.1 ++ (sep ++ q.2) = t := by
  intro t
  induction t with
  | nil => intro q hq; simp [findSplit] at hq
  | cons c rest ih =>
    intro q hq
    by_cases hst : pyStartsWith (c :: rest) sep = true
    · obtain ⟨q1, q2⟩ := q
      simp [findSplit, hst] at hq
      rw [hq.1, ← hq.2]
      simpa using pyStartsWith_decomp sep (c :: rest) hst
    · simp [findSplit, hst] at hq
      rcases hq' : findSplit sep rest with _ | q'
      · simp [hq'] at hq
      · simp [hq'] at hq
        have := ih q' hq'
        rw [← hq]
        simp [← this]

theorem splitSegs_ne_nil (sep text : List Char) : splitSegs sep text ≠ [] := by
  unfold splitSegs
  split
  · simp
  · split
    · simp
    · simp

theorem splitSegs_joinSep (sep : List Char) (hs : sep ≠ []) (text : List Char) :
    pyJoinSep sep (splitSegs sep text) = text := by
  have H : ∀ (n : Nat) (t : List Char), t.length ≤ n →
      pyJoinSep sep (splitSegs sep t) = t := by
    intro n
    induction n with
    | zero =>
      intro t ht
      have ht0 : t = [] := List.length_eq_zero.mp (Nat.le_zero.mp ht)
      subst ht0
      unfold splitSegs
      rw [dif_neg hs]
      split
      · rfl
      · rename_i pp heq
        simp [findSplit] at heq
    | succ n ih =>
      intro t ht
      unfold splitSegs
      rw [dif_neg hs]
      split
      · rfl
      · rename_i pp heq
        have hdec := findSplit_decomp sep t pp heq
        have hlen := congrArg List.length hdec
        simp [List.length_append] at hlen
        have hsl : 1 ≤ sep.length := by
          cases sep with
          | nil => exact absurd rfl hs
          | cons a b => simp
        have hple : pp.2.length ≤ n := by omega
        have hne := splitSegs_ne_nil sep pp.2
        cases hss : splitSegs sep pp.2 with
        | nil => exact absurd hss hne
        | cons d ds =>
          have ihp : pyJoinSep sep (splitSegs sep pp.2) = pp.2 := ih pp.2 hple
          rw [hss] at ihp
          simp only [pyJoinSep]
          rw [ihp, List.append_assoc]
          exact hdec
  exact H text.length text le_rfl

theorem pyConcat_filter_nonempty (l : List (List Char)) :
    pyConcat (l.filter (fun s => !s.isEmpty)) = pyConcat l := by
  induction l with
  | nil => rfl
  | cons s rest ih =>
    cases s with
    | nil => simpa [List.filter_cons, pyConcat] using ih
    | cons c cs => simp [List.filter_cons, pyConcat, ih]

theorem pyConcat_map_singleton (t : List Char) :
    pyConcat (t.map (fun c => [c])) = t := by
  induction t with
  | nil => rfl
  | cons c cs ih => simp [pyConcat, ih]

theorem length_le_pyConcat {p : List Char} {l : List (List Char)} (h : p ∈ l) :
    p.length ≤ (pyConcat l).length := by
  induction l with
  | nil => simp at h
  | cons d rest ih =>
    rcases List.mem_cons.mp h with h1 | h2
    · subst h1; simp [pyConcat, List.length_append]
    · have := ih h2
      simp only [pyConcat, List.length_append]
      omega

theorem sum_map_length_pyConcat (l : List (List Char)) :
    (l.map List.length).sum = (pyConcat l).length := by
  induction l with
  | nil => rfl
  | cons d rest ih => simp [pyConcat, List.length_append, ih]

theorem pyJoinSep_nil (l : List (List Char)) : pyJoinSep [] l = pyConcat l := by
  induction l with
  | nil => rfl
  | cons d rest ih =>
    cases rest with
    | nil => simp [pyJoinSep, pyConcat]
    | cons e rest2 =>
      simp only [pyJoinSep, pyConcat] at ih ⊢
      rw [ih]
      simp

theorem pyConcat_map_sep (sep : List Char) :
    ∀ (rest : List (List Char)) (s0 : List Char),
      s0 ++ pyConcat (rest.map (fun seg => sep ++ seg)) = pyJoinSep sep (s0 :: rest) := by
  intro rest
  induction rest with
  | nil => intro s0; simp [pyJoinSep, pyConcat]
  | cons e rest2 ih =>
    intro s0
    simp only [List.map_cons, pyConcat, pyJoinSep]
    rw [← ih e]
    simp [List.append_assoc]

theorem splitKeep_concat (sep text : List Char) (hs : sep ≠ []) :
    pyConcat (splitKeep sep text) = text := by
  unfold splitKeep
  cases hss : splitSegs sep text with
  | nil => exact absurd hss (splitSegs_ne_nil sep text)
  | cons s0 rest =>
    rw [pyConcat_filter_nonempty, pyConcat, pyConcat_map_sep, ← hss]
    exact splitSegs_joinSep sep hs text

theorem splitTextWithRegex_concat (sep text : List Char) :
    pyConcat (splitTextWithRegex sep text) = text := by
  unfold splitTextWithRegex
  by_cases hs : sep = []
  · rw [if_pos hs, pyConcat_filter_nonempty, pyConcat_map_singleton]
  · rw [if_neg hs]
    exact splitKeep_concat sep text hs

theorem totalOf_zero (doc : List (List Char)) :
    totalOf 0 doc = (doc.map List.length).sum := by
  simp [totalOf]

theorem mergeFold_fits (cs co : Nat) :
    ∀ (rest cur docs : List (List Char)),
      (cur.map List.length).sum + (rest.map List.length).sum ≤ cs →
      rest.foldl (mergeStep cs co []) (docs, cur) = (docs, cur ++ rest) := by
  intro rest
  induction rest with
  | nil => intro cur docs _; simp
  | cons d rest2 ih =>
    intro cur docs hle
    rw [List.foldl_cons]
    have hcond : ¬ (cs < totalOf 0 cur + d.length + (if cur = [] then 0 else 0)) := by
      rw [ite_self, totalOf_zero]
      simp only [List.map_cons, List.sum_cons] at hle
      omega
    have hstep : mergeStep cs co [] (docs, cur) d = (docs, cur ++ [d]) := by
      unfold mergeStep
      dsimp only [List.length_nil]
      rw [if_neg hcond]
    rw [hstep]
    have hle2 : ((cur ++ [d]).map List.length).sum + (rest2.map List.length).sum ≤ cs := by
      simp only [List.map_append, List.sum_append, List.map_cons, List.sum_cons,
        List.map_nil, List.sum_nil] at hle ⊢
      omega
    rw [ih (cur ++ [d]) docs hle2]
    simp

theorem merge_splits_fits (cs co : Nat) (splits : List (List Char))
    (hle : (splits.map List.length).sum ≤ cs) :
    merge_splits cs co [] splits = (joinDocs [] splits).toList := by
  unfold merge_splits
  rw [mergeFold_fits cs co splits [] [] (by simpa using hle)]
  simp only [List.nil_append]
  cases hj : joinDocs [] splits with
  | none => simp [hj]
  | some doc => simp [hj]

theorem processFold_good (cs co : Nat) (hb : List Char → List (List Char)) :
    ∀ (splits fcs g : List (List Char)),
      (∀ s ∈ splits, s.length < cs) →
      splits.foldl (processStep cs co hb) (fcs, g) = (fcs, g ++ splits) := by
  intro splits
  induction splits with
  | nil => intro fcs g _; simp
  | cons s rest ih =>
    intro fcs g hgood
    rw [List.foldl_cons]
    have hstep : processStep cs co hb (fcs, g) s = (fcs, g ++ [s]) := by
      unfold processStep
      rw [if_pos (hgood s (by simp))]
    rw [hstep, ih fcs (g ++ [s]) (fun x hx => hgood x (by simp [hx]))]
    simp

theorem processAll_concat_small (cs co : Nat) (hb : List Char → List (List Char))
    (text : List Char) (splits : List (List Char))
    (hj : pyConcat splits = text) (h1 : text ≠ []) (h2 : pyStrip text = text)
    (h3 : text.length < cs) :
    processAllSplits cs co hb splits = [text] := by
  have hgood : ∀ s ∈ splits, s.length < cs := by
    intro s hs
    exact lt_of_le_of_lt (hj ▸ length_le_pyConcat hs) h3
  have hne : splits ≠ [] := by
    intro h
    subst h
    exact h1 hj.symm
  unfold processAllSplits
  rw [processFold_good cs co hb splits [] [] hgood]
  simp only [List.nil_append]
  rw [if_neg hne]
  rw [merge_splits_fits cs co splits (by rw [sum_map_length_pyConcat, hj]; omega)]
  have hjd : joinDocs [] splits = some text := by
    unfold joinDocs
    simp only [pyJoinSep_nil, hj, h2]
    rw [if_neg h1]
  rw [hjd]
  rfl

theorem splitScan_small (cs co : Nat) :
    ∀ (seps : List (List Char)) (deflt text : List Char),
      text ≠ [] → pyStrip text = text → text.length < cs →
      splitScan cs co deflt seps text = [text] := by
  intro seps
  induction seps with
  | nil =>
    intro deflt text h1 h2 h3
    unfold splitScan
    exact processAll_concat_small cs co _ text _ (splitTextWithRegex_concat deflt text)
      h1 h2 h3
  | cons s rest ih =>
    intro deflt text h1 h2 h3
    unfold splitScan
    by_cases hs : s = []
    · rw [if_pos hs]
      exact processAll_concat_small cs co _ text _ (splitTextWithRegex_concat [] text)
        h1 h2 h3
    · rw [if_neg hs]
      by_cases hcon : containsSub text s = true
      · rw [if_pos hcon]
        exact processAll_concat_small cs co _ text _ (splitTextWithRegex_concat s text)
          h1 h2 h3
      · rw [if_neg hcon]
        exact ih _ text h1 h2 h3

/-- C7 counterexample: "\ta" has length 2 < 100, but split with chunk_size=100
returns ["a"] — the splitter strips leading/trailing whitespace from every
chunk — so the single chunk does not equal the input text. -/
theorem C7_counterexample :
    (String.toList "\ta").length < 100 ∧
    split_text_into_chunks (String.toList "\ta") 100 50 ≠ [String.toList "\ta"] := by
  decide

/-- C7 amended: for every nonempty text of length < 100 with no leading or
trailing whitespace (so that the splitter's whitespace stripping leaves it
unchanged), split with chunk_size=100 returns exactly one chunk equal to the
text. (The original claim fails for the empty text, which yields no chunk, and
for texts with leading/trailing whitespace, which are stripped.) -/
theorem C7_short_text (text : List Char) (h1 : text ≠ [])
    (h2 : pyStrip text = text) (h3 : text.length < 100) :
    split_text_into_chunks text 100 50 = [text] := by
  unfold split_text_into_chunks
  rw [if_neg h1]
  exact splitScan_small 100 50 defaultSeparators _ text h1 h2 h3

/-- Witness for C7 amended at text "hello". -/
theorem C7_short_text_witness :
    String.toList "hello" ≠ [] ∧ (String.toList "hello").length < 100 ∧
    split_text_into_chunks (String.toList "hello") 100 50 = [String.toList "hello"] :=
  ⟨by decide, by decide,
   C7_short_text (String.toList "hello") (by decide) (by decide) (by decide)⟩
